import Mathlib

/-!
Shallow embedding of `nexus_api_downloaderV1.2.py` (a Nexus Mods download
client) and proofs about its observable behaviour.

String primitives model the Python string operations used by the script
(`str.lower`, the `in` substring test, `str.strip`, `int(...)`) for the
ASCII inputs the program works with.
-/

/-- Models Python `str.lower` on a single character, restricted to ASCII
(the script only handles ASCII identifiers and URLs). -/
def lowerChar (c : Char) : Char :=
  if 65 ≤ c.toNat ∧ c.toNat ≤ 90 then Char.ofNat (c.toNat + 32) else c

/-- Models Python `str.lower` (ASCII). -/
def pyLower (s : String) : String := ⟨s.data.map lowerChar⟩

/-- Does `hay` start with `needle`? Helper for the substring test. -/
def startsWithSeq : List Char → List Char → Bool
  | [], _ => true
  | _ :: _, [] => false
  | a :: as, b :: bs => (a = b) && startsWithSeq as bs

/-- Does `needle` occur as a contiguous subsequence of `hay`? -/
def containsSeq (needle : List Char) : List Char → Bool
  | [] => startsWithSeq needle []
  | b :: t => startsWithSeq needle (b :: t) || containsSeq needle t

/-- Models the Python substring test `needle in hay`. -/
def pyContains (hay needle : String) : Bool := containsSeq needle.data hay.data

/-- ASCII whitespace as Python `str.strip` removes it. -/
def isSpaceChar (c : Char) : Bool :=
  c = ' ' || c = '\t' || c = '\n' || c = '\r' || c = '\x0b' || c = '\x0c'

/-- Models Python `str.strip()` (ASCII whitespace). -/
def pyStrip (s : String) : String :=
  ⟨((s.data.dropWhile isSpaceChar).reverse.dropWhile isSpaceChar).reverse⟩

/-!
DomainNormalizer: `normalize_game_domain` (source lines 32-54). The Python
`mappings` dict maps alias tuples to canonical slugs; dict iteration follows
insertion order, modelled as an association list searched front to back.
-/

/-- The alias table of `normalize_game_domain`, in insertion order. -/
def mappings : List (List String × String) :=
  [(["skyrimse", "skyrimspecialedition"], "skyrimspecialedition"),
   (["skyrim", "skyrimlegendaryedition"], "skyrim"),
   (["fallout4"], "fallout4"),
   (["falloutnewvegas", "falloutnv"], "falloutnv")]

/-- Normalizes game names to Nexus Mods API game_domain slugs: lower-case
the input, return the canonical slug of the first alias set containing it,
else the lower-cased input unchanged. -/
def normalize_game_domain (game_name_from_wabbajack : String) : String :=
  match mappings.find? (fun m => m.1.contains (pyLower game_name_from_wabbajack)) with
  | some m => m.2
  | none => pyLower game_name_from_wabbajack

/-!
LinkResolver: `get_nexus_download_url` (source lines 57-124). The network
call itself is not modelled; the response the API returned is the input.
A JSON body is either an array of link-shaped values or some other JSON
value; each element of the array is either a dict with optional `URI`,
`name`, `short_name` keys, or a non-dict value.
-/

/-- A dict element of the download-links array: the three keys the code
reads, each possibly absent. -/
structure LinkObj where
  URI : Option String
  name : Option String
  short_name : Option String
deriving DecidableEq, Repr

/-- An element of the decoded JSON array: a dict or any non-dict value. -/
inductive LinkJson
  | obj (o : LinkObj)
  | nonObj
deriving DecidableEq, Repr

/-- The decoded JSON body: an array of link values, or any non-array value. -/
inductive JsonBody
  | arr (links : List LinkJson)
  | nonArr
deriving DecidableEq, Repr

/-- An API response as `get_nexus_download_url` inspects it: `response.ok`,
the Content-Type header (empty string when absent), and the decoded JSON
body (`none` models a `json.JSONDecodeError`). -/
structure ApiResponse where
  ok : Bool
  contentType : String
  body : Option JsonBody
deriving DecidableEq, Repr

/-- The priority loop over candidates (source lines 95-105): one pass in
list order; skip malformed entries; return the first candidate whose URI
contains "filedelivery.nexusmods.com", or — at the position where it is
met — one whose short_name is "Direct Download" or name is
"Primary Download". -/
def priorityPass : List LinkJson → Option String
  | [] => none
  | .nonObj :: rest => priorityPass rest
  | .obj o :: rest =>
    match o.URI, o.name with
    | some u, some nm =>
      if pyContains u "filedelivery.nexusmods.com" then some u
      else if o.short_name = some "Direct Download" ∨ nm = "Primary Download" then some u
      else priorityPass rest
    | _, _ => priorityPass rest

/-- The fallback (source line 108): first element that is a dict with a
`URI` key (its `name` is not required here). -/
def firstValidURI : List LinkJson → Option String
  | [] => none
  | .obj o :: rest =>
    match o.URI with
    | some u => some u
    | none => firstValidURI rest
  | .nonObj :: rest => firstValidURI rest

/-- Selection over a decoded non-empty array: priority pass, else fallback,
else `none` ("No usable download URI found"). -/
def selectFromLinks (links : List LinkJson) : Option String :=
  match priorityPass links with
  | some u => some u
  | none => firstValidURI links

/-- Models `get_nexus_download_url` from the response onward: non-2xx →
`none`; Content-Type without "application/json" → `none`; JSON decode
failure → `none`; body not a non-empty list → `none`; else select a URI. -/
def get_nexus_download_url (resp : ApiResponse) : Option String :=
  if ¬resp.ok then none
  else if ¬pyContains (pyLower resp.contentType) "application/json" then none
  else
    match resp.body with
    | none => none
    | some .nonArr => none
    | some (.arr links) => if links.isEmpty then none else selectFromLinks links

/-!
ManifestExtractor: `parse_wabbajack_json` (source lines 167-236). File IO
and JSON decoding are not modelled; the input is the decoded `Archives`
array. Each archive is modelled with the fields the code reads, each
possibly absent: `State` (a dict with `$type`, `ModID`, `FileID`,
`GameName`) and `Name`.
-/

/-- The nested `State` dict of one archive entry, keys possibly absent. -/
structure StateObj where
  dollarType : Option String
  ModID : Option Int
  FileID : Option Int
  GameName : Option String
deriving DecidableEq, Repr

/-- One entry of the manifest's `Archives` array. -/
structure Archive where
  State : Option StateObj
  Name : Option String
deriving DecidableEq, Repr

/-- Archive's `state.get($type, spelled dollarType here)` after
`archive.get(State, \x7b\x7d)`: empty string when either is absent. -/
def Archive.stateType (a : Archive) : String :=
  (a.State.bind StateObj.dollarType).getD ""

/-- Archive's `state.get(ModID)`. -/
def Archive.modID (a : Archive) : Option Int := a.State.bind StateObj.ModID

/-- Archive's `state.get(FileID)`. -/
def Archive.fileID (a : Archive) : Option Int := a.State.bind StateObj.FileID

/-- Archive's `state.get(GameName)`. -/
def Archive.gameName (a : Archive) : Option String :=
  a.State.bind StateObj.GameName

/-- Python truthiness of an optional integer: present and non-zero. -/
def truthyInt : Option Int → Bool
  | none => false
  | some n => n ≠ 0

/-- Python truthiness of an optional string: present and non-empty. -/
def truthyStr : Option String → Bool
  | none => false
  | some s => s ≠ ""

/-- The `downloadables` record built for each kept archive. -/
structure DownloadRequest where
  game_domain : String
  mod_id : Int
  file_id : Int
  filename : String
deriving DecidableEq, Repr

/-- The extraction loop of `parse_wabbajack_json` (source lines 207-234),
with `filter_lower` already computed: keep entries whose `$type` contains
"NexusDownloader" and whose four fields are truthy; when a filter is
active, additionally require it to occur in the lower-cased filename or
game name. -/
def extractLoop (filter_lower : Option String) : List Archive → List DownloadRequest
  | [] => []
  | a :: rest =>
    if pyContains a.stateType "NexusDownloader" then
      if truthyInt a.modID && truthyInt a.fileID
          && truthyStr a.gameName && truthyStr a.Name then
        let keep :=
          match filter_lower with
          | some fl =>
            pyContains (pyLower (a.Name.getD "")) fl
              || pyContains (pyLower (a.gameName.getD "")) fl
          | none => true
        if keep then
          { game_domain := a.gameName.getD "", mod_id := a.modID.getD 0,
            file_id := a.fileID.getD 0, filename := a.Name.getD "" }
            :: extractLoop filter_lower rest
        else extractLoop filter_lower rest
      else extractLoop filter_lower rest
    else extractLoop filter_lower rest

/-- Models `parse_wabbajack_json` from the decoded `Archives` array onward.
`filter_lower` is `filter_string.lower() if filter_string else None`: a
`none` or empty filter string deactivates filtering. -/
def parse_wabbajack_json (archives : List Archive) (filter_string : Option String) :
    List DownloadRequest :=
  let filter_lower : Option String :=
    match filter_string with
    | some s => if s = "" then none else some (pyLower s)
    | none => none
  extractLoop filter_lower archives

/-- An archive qualifies when its `$type` contains "NexusDownloader" and
all four extracted fields are truthy. -/
def qualifies (a : Archive) : Bool :=
  pyContains a.stateType "NexusDownloader" && truthyInt a.modID
    && truthyInt a.fileID && truthyStr a.gameName && truthyStr a.Name

/-- The record emitted for a qualifying archive. -/
def extractReq (a : Archive) : DownloadRequest :=
  { game_domain := a.gameName.getD "", mod_id := a.modID.getD 0,
    file_id := a.fileID.getD 0, filename := a.Name.getD "" }

/-- The filter predicate, phrased on an emitted record: the lower-cased
filter occurs in the lower-cased display name or raw game name. -/
def filterPred (f : String) (r : DownloadRequest) : Bool :=
  pyContains (pyLower r.filename) (pyLower f)
    || pyContains (pyLower r.game_domain) (pyLower f)

/-!
Downloader: `download_file` (source lines 127-163). The streamed response
body is modelled as a list of events: a received chunk (its bytes), a
transport failure (`requests.exceptions.RequestException`, e.g. a dropped
connection, caught at line 155 where the partial file is removed), or any
other failure such as an `OSError` from the file write (caught by the
generic handler at line 161, which performs no cleanup).
-/

/-- One event of the streamed download. -/
inductive StreamEvent
  | chunk (bytes : List Nat)
  | transportFail
  | otherFail
deriving DecidableEq, Repr

/-- Observable outcome of `download_file`: the returned boolean, the target
file afterwards (`none` = absent, `some bs` = present with bytes `bs`), the
`total_size_bytes` handed to the progress bar, and the summed progress-bar
updates. -/
structure DLOutcome where
  success : Bool
  file : Option (List Nat)
  total_size_bytes : Nat
  progressed : Nat
deriving DecidableEq, Repr

/-- The chunk loop (source lines 147-150): write each non-empty chunk and
advance the progress bar; on a transport failure the handler removes the
partial file; on any other failure the partial file is left in place. -/
def streamLoop : List StreamEvent → List Nat → Nat → (Bool × Option (List Nat) × Nat)
  | [], acc, p => (true, some acc, p)
  | .chunk b :: rest, acc, p =>
    if b.isEmpty then streamLoop rest acc p
    else streamLoop rest (acc ++ b) (p + b.length)
  | .transportFail :: _, _, p => (false, none, p)
  | .otherFail :: _, acc, p => (false, some acc, p)

/-- Models `download_file`: a bad HTTP status raises before the file is
created (handler finds no file to remove); otherwise the declared
content-length (0 when the header is absent) seeds the progress bar and
the body is streamed to the file. -/
def download_file (content_length : Option Nat) (statusOk : Bool)
    (events : List StreamEvent) : DLOutcome :=
  if ¬statusOk then ⟨false, none, 0, 0⟩
  else
    let total := content_length.getD 0
    let r := streamLoop events [] 0
    ⟨r.1, r.2.1, total, r.2.2⟩

/-- Bytes of all chunk events, in order (failure events contribute none). -/
def flattenChunks : List StreamEvent → List Nat
  | [] => []
  | .chunk b :: rest => b ++ flattenChunks rest
  | _ :: rest => flattenChunks rest

/-!
Orchestrator: the `__main__` block (source lines 239-360). Console input is
modelled as a finite script of strings; the selection loop of manifest mode
(lines 281-327) consumes it. Process exit is modelled with CPython's
`sys.exit` status semantics.
-/

/-- An argument passed to Python's `exit`. -/
inductive PyExitArg
  | noArg
  | intArg (n : Nat)
  | strArg (s : String)
deriving DecidableEq, Repr

/-- CPython `sys.exit` status: no argument → 0, an integer → that integer
(mod 256 on POSIX), any other object such as a string → the message is
printed and the status is 1. -/
def pyExitStatus : PyExitArg → Nat
  | .noArg => 0
  | .intArg n => n % 256
  | .strArg _ => 1

/-- Result of Python `int(s)` on a stripped string: optional sign followed
by one or more ASCII digits (digit-grouping underscores are not modelled). -/
def digitsVal? : List Char → Option Nat
  | [] => none
  | ds => if ds.all Char.isDigit
      then some (ds.foldl (fun n c => 10 * n + (c.toNat - 48)) 0)
      else none

/-- Models Python `int(s)` (returns `none` where Python raises ValueError). -/
def pyInt? (s : String) : Option Int :=
  match (pyStrip s).data with
  | '+' :: ds => (digitsVal? ds).map Int.ofNat
  | '-' :: ds => (digitsVal? ds).map (fun n => -(Int.ofNat n))
  | ds => (digitsVal? ds).map Int.ofNat

/-- What one iteration of the selection loop does with one input line. -/
inductive SelAction
  | quitA
  | allA
  | oneA (i : Nat)
  | repromptA
deriving DecidableEq, Repr

/-- One iteration of the selection loop on input `raw` with `n` listed
downloadables: strip and lower-case; q quits; all downloads everything and
re-prompts; an in-range integer downloads that item and ends the loop;
anything else (ValueError or out-of-range) re-prompts. -/
def stepSelection (n : Nat) (raw : String) : SelAction :=
  let sel := pyLower (pyStrip raw)
  if sel = "q" then .quitA
  else if sel = "all" then .allA
  else
    match pyInt? sel with
    | none => .repromptA
    | some k => if 0 ≤ k - 1 ∧ k - 1 < (n : Int) then .oneA (k - 1).toNat else .repromptA

/-- A batch of downloads performed by one loop iteration. -/
inductive Batch
  | allB
  | oneB (i : Nat)
deriving DecidableEq, Repr

/-- Is this batch an all-items batch? -/
def Batch.isAll : Batch → Bool
  | .allB => true
  | .oneB _ => false

/-- The selection loop over an input script: returns the batches performed
when the loop terminates (via q or a single in-range selection), `none`
when the script is exhausted first (the loop would keep prompting). -/
def selectionLoop (n : Nat) : List String → Option (List Batch)
  | [] => none
  | s :: rest =>
    match stepSelection n s with
    | .quitA => some []
    | .oneA i => some [.oneB i]
    | .allA => (selectionLoop n rest).map (fun bs => .allB :: bs)
    | .repromptA => selectionLoop n rest

/-- The manual-mode console answers (source lines 332-335). -/
structure ManualInput where
  game_id : String
  mod_id_str : String
  file_id_str : String
  filename : String
deriving DecidableEq, Repr

/-- The two mutually exclusive run modes of `__main__`. -/
inductive RunMode
  | manifestMode (archives : List Archive) (filter_string : Option String)
      (script : List String)
  | manualMode (inp : ManualInput)

/-- Models the exit status of `__main__`: `apiKeyOk` is whether
`load_api_key` returned a truthy key. Returns `none` when the selection
loop never terminates (script exhausted). Missing key → `exit` with a
message string; empty manifest extraction → `exit(0)`; loop termination or
manual completion → fall off the end (status 0); malformed manual ids →
`exit(1)`. -/
def mainExit (apiKeyOk : Bool) (mode : RunMode) : Option Nat :=
  if ¬apiKeyOk then
    some (pyExitStatus (.strArg "Exiting. Please ensure your API key is correctly set up."))
  else
    match mode with
    | .manifestMode archives fs script =>
      let downloadables := parse_wabbajack_json archives fs
      if downloadables.isEmpty then some (pyExitStatus (.intArg 0))
      else (selectionLoop downloadables.length script).map (fun _ => 0)
    | .manualMode inp =>
      match pyInt? inp.mod_id_str, pyInt? inp.file_id_str with
      | some _, some _ => some 0
      | _, _ => some (pyExitStatus (.intArg 1))

/-!
Concrete instances used in counterexamples and witnesses.
-/

/-- Is the decoded body a non-empty JSON array? -/
def nonemptyArr : JsonBody → Bool
  | .arr (_ :: _) => true
  | _ => false

/-- Candidate with a URI matching neither selection rule. -/
def linkOther : LinkJson := .obj ⟨some "https://cdn.example/x", some "Other", none⟩

/-- Candidate whose URI contains "filedelivery.nexusmods.com". -/
def linkFile : LinkJson :=
  .obj ⟨some "https://filedelivery.nexusmods.com/y", some "Mirror", none⟩

/-- Candidate whose name is "Primary Download". -/
def linkPrim : LinkJson := .obj ⟨some "https://cdn.example/z", some "Primary Download", none⟩

/-- A fully-populated NexusDownloader archive entry. -/
def archGood : Archive :=
  ⟨some ⟨some "Wabbajack.Lib.Downloaders.NexusDownloader, Wabbajack.Lib",
    some 3, some 5, some "SkyrimSE"⟩, some "CoolMod.7z"⟩

/-- A NexusDownloader entry with no `FileID` key. -/
def archNoFile : Archive :=
  ⟨some ⟨some "NexusDownloader", some 3, none, some "SkyrimSE"⟩, some "Other.7z"⟩

/-- A non-Nexus archive entry. -/
def archHTTP : Archive :=
  ⟨some ⟨some "HttpDownloader", some 1, some 2, some "SkyrimSE"⟩, some "H.7z"⟩

/-- A NexusDownloader entry whose `FileID` is present but 0. -/
def archZeroFile : Archive :=
  ⟨some ⟨some "NexusDownloader", some 3, some 0, some "skyrimse"⟩, some "Z.7z"⟩

/-- A three-entry `Archives` array: one qualifying entry, one missing its
FileID, one from a different downloader. -/
def demoArchives : List Archive := [archGood, archNoFile, archHTTP]

/-!
Helper lemmas.
-/

theorem char_ofNat_toNat_small :
    ∀ m : Nat, m < 123 → 97 ≤ m → (Char.ofNat m).toNat = m := by decide

theorem lowerChar_idem (c : Char) : lowerChar (lowerChar c) = lowerChar c := by
  unfold lowerChar
  by_cases h : 65 ≤ c.toNat ∧ c.toNat ≤ 90
  · rw [if_pos h]
    have hv : (Char.ofNat (c.toNat + 32)).toNat = c.toNat + 32 :=
      char_ofNat_toNat_small _ (by omega) (by omega)
    rw [if_neg]
    rw [hv]
    omega
  · rw [if_neg h, if_neg h]

theorem pyLower_idem (s : String) : pyLower (pyLower s) = pyLower s := by
  unfold pyLower
  simp [List.map_map, Function.comp_def, lowerChar_idem]

theorem normalize_of_find_none (s : String)
    (h : mappings.find? (fun m => m.1.contains (pyLower s)) = none) :
    normalize_game_domain s = pyLower s := by
  unfold normalize_game_domain
  rw [h]

theorem normalize_game_domain_idem (s : String) :
    normalize_game_domain (normalize_game_domain s) = normalize_game_domain s := by
  cases hf : mappings.find? (fun m => m.1.contains (pyLower s)) with
  | some m =>
    have hm : m ∈ mappings := List.mem_of_find?_eq_some hf
    have hs : normalize_game_domain s = m.2 := by unfold normalize_game_domain; rw [hf]
    rw [hs]
    simp only [mappings, List.mem_cons, List.not_mem_nil, or_false] at hm
    rcases hm with rfl | rfl | rfl | rfl <;> decide
  | none =>
    have hs : normalize_game_domain s = pyLower s := normalize_of_find_none s hf
    have h2 : mappings.find? (fun m => m.1.contains (pyLower (pyLower s))) = none := by
      rw [pyLower_idem]
      exact hf
    rw [hs, normalize_of_find_none (pyLower s) h2, pyLower_idem]

/-- C6: DomainNormalizer is total (a total Lean function) and idempotent;
normalizing "SkyrimSE" gives "skyrimspecialedition"; "unknown_game" is
returned unchanged; any input whose lower-casing matches no alias set is
returned lower-cased, otherwise unchanged. -/
theorem c6_normalizer_total_idempotent :
    (∀ s, normalize_game_domain (normalize_game_domain s) = normalize_game_domain s) ∧
    normalize_game_domain "SkyrimSE" = "skyrimspecialedition" ∧
    normalize_game_domain "unknown_game" = "unknown_game" ∧
    ∀ s, mappings.find? (fun m => m.1.contains (pyLower s)) = none →
      normalize_game_domain s = pyLower s :=
  ⟨normalize_game_domain_idem, by decide, by decide, normalize_of_find_none⟩

/-- Witness for C6 at the concrete unmapped input "Unknown_Game". -/
theorem c6_normalizer_total_idempotent_witness :
    normalize_game_domain "Unknown_Game" = pyLower "Unknown_Game" :=
  c6_normalizer_total_idempotent.2.2.2 "Unknown_Game" (by decide)

/-- Counterexample to C1: with the "Primary Download" candidate listed
before the filedelivery candidate, the resolver returns the
"Primary Download" URI, not the filedelivery URI — the priority is not
global over the list. -/
theorem c1_priority_counterexample :
    get_nexus_download_url
        ⟨true, "application/json", some (.arr [linkPrim, linkFile, linkOther])⟩
      = some "https://cdn.example/z" ∧
    some "https://cdn.example/z" ≠ some "https://filedelivery.nexusmods.com/y" := by
  decide

/-- C1 (amended): selection is a single pass in list order, returning the
first candidate matching either rule; over all six permutations of the
three stated candidates, the filedelivery URI is returned exactly when the
filedelivery candidate precedes the "Primary Download" candidate, and the
"Primary Download" URI otherwise. -/
theorem c1_single_pass_selection :
    selectFromLinks [linkOther, linkFile, linkPrim]
        = some "https://filedelivery.nexusmods.com/y" ∧
    selectFromLinks [linkFile, linkOther, linkPrim]
        = some "https://filedelivery.nexusmods.com/y" ∧
    selectFromLinks [linkFile, linkPrim, linkOther]
        = some "https://filedelivery.nexusmods.com/y" ∧
    selectFromLinks [linkOther, linkPrim, linkFile] = some "https://cdn.example/z" ∧
    selectFromLinks [linkPrim, linkOther, linkFile] = some "https://cdn.example/z" ∧
    selectFromLinks [linkPrim, linkFile, linkOther] = some "https://cdn.example/z" := by
  decide

/-- C5: whenever the decoded JSON body is not a non-empty list — the empty
array included — the resolver returns no candidate URI. -/
theorem c5_no_links_failure (resp : ApiResponse) (b : JsonBody)
    (hb : resp.body = some b) (h : nonemptyArr b = false) :
    get_nexus_download_url resp = none := by
  rcases resp with ⟨ok, ct, body⟩
  simp only at hb
  subst hb
  unfold get_nexus_download_url
  cases ok with
  | false => simp
  | true =>
    cases b with
    | nonArr => simp
    | arr links =>
      cases links with
      | nil => simp
      | cons a t => simp [nonemptyArr] at h

/-- Witness for C5 at a well-formed response carrying an empty JSON array. -/
theorem c5_no_links_failure_witness :
    get_nexus_download_url ⟨true, "application/json", some (.arr [])⟩ = none :=
  c5_no_links_failure ⟨true, "application/json", some (.arr [])⟩ (.arr []) rfl (by decide)

theorem containsSeq_nil (hay : List Char) : containsSeq [] hay = true := by
  cases hay <;> simp [containsSeq, startsWithSeq]

theorem pyContains_empty (hay : String) : pyContains hay "" = true :=
  containsSeq_nil hay.data

theorem truthyInt_getD {o : Option Int} (h : truthyInt o = true) : o.getD 0 ≠ 0 := by
  cases o with
  | none => simp [truthyInt] at h
  | some n =>
    simp only [truthyInt, decide_eq_true_eq] at h
    simpa using h

theorem truthyStr_getD {o : Option String} (h : truthyStr o = true) : o.getD "" ≠ "" := by
  cases o with
  | none => simp [truthyStr] at h
  | some s =>
    simp only [truthyStr, decide_eq_true_eq] at h
    simpa using h

theorem extractLoop_none_eq (archives : List Archive) :
    extractLoop none archives = (archives.filter qualifies).map extractReq := by
  induction archives with
  | nil => rfl
  | cons a rest ih =>
    by_cases h1 : pyContains a.stateType "NexusDownloader" = true
    · by_cases h2 : (truthyInt a.modID && truthyInt a.fileID
          && truthyStr a.gameName && truthyStr a.Name) = true
      · have hq : qualifies a = true := by
          simp only [qualifies, Bool.and_assoc] at *
          simp [h1, h2]
        simp [extractLoop, h1, h2, List.filter_cons, hq, ih, extractReq]
      · simp only [Bool.not_eq_true] at h2
        have hq : qualifies a = false := by
          simp only [qualifies, Bool.and_assoc]
          simp only [Bool.and_assoc] at h2
          simp [h2]
        simp [extractLoop, h1, h2, List.filter_cons, hq, ih]
    · simp only [Bool.not_eq_true] at h1
      have hq : qualifies a = false := by simp [qualifies, h1]
      simp [extractLoop, h1, List.filter_cons, hq, ih]

theorem extractLoop_some_eq (fl : String) (archives : List Archive) :
    extractLoop (some fl) archives
      = (extractLoop none archives).filter
          (fun r => pyContains (pyLower r.filename) fl
            || pyContains (pyLower r.game_domain) fl) := by
  induction archives with
  | nil => rfl
  | cons a rest ih =>
    by_cases h1 : pyContains a.stateType "NexusDownloader" = true
    · by_cases h2 : (truthyInt a.modID && truthyInt a.fileID
          && truthyStr a.gameName && truthyStr a.Name) = true
      · by_cases h3 : (pyContains (pyLower (a.Name.getD "")) fl
            || pyContains (pyLower (a.gameName.getD "")) fl) = true
        · simp [extractLoop, h1, h2, h3, List.filter_cons, ih]
        · simp only [Bool.not_eq_true] at h3
          simp [extractLoop, h1, h2, h3, List.filter_cons, ih]
      · simp only [Bool.not_eq_true] at h2
        simp [extractLoop, h1, h2, ih]
    · simp only [Bool.not_eq_true] at h1
      simp [extractLoop, h1, ih]

theorem extractLoop_append (fl : Option String) (l1 l2 : List Archive) :
    extractLoop fl (l1 ++ l2) = extractLoop fl l1 ++ extractLoop fl l2 := by
  induction l1 with
  | nil => rfl
  | cons a rest ih =>
    by_cases h1 : pyContains a.stateType "NexusDownloader" = true
    · by_cases h2 : (truthyInt a.modID && truthyInt a.fileID
          && truthyStr a.gameName && truthyStr a.Name) = true
      · cases fl with
        | none => simp [extractLoop, h1, h2, ih]
        | some f =>
          by_cases h3 : (pyContains (pyLower (a.Name.getD "")) f
              || pyContains (pyLower (a.gameName.getD "")) f) = true
          · simp [extractLoop, h1, h2, h3, ih]
          · simp only [Bool.not_eq_true] at h3
            simp [extractLoop, h1, h2, h3, ih]
      · simp only [Bool.not_eq_true] at h2
        simp [extractLoop, h1, h2, ih]
    · simp only [Bool.not_eq_true] at h1
      simp [extractLoop, h1, ih]

/-- C2: with no filter, the output is exactly the qualifying entries, in
manifest order with duplicates preserved; the length is the number of
qualifying entries; every emitted record has all four fields truthy
(non-zero ids, non-empty strings); entries missing a field contribute
nothing (they fail `qualifies` and are filtered away). -/
theorem c2_manifest_extraction (archives : List Archive) :
    parse_wabbajack_json archives none = (archives.filter qualifies).map extractReq ∧
    (parse_wabbajack_json archives none).length = (archives.filter qualifies).length ∧
    ∀ r ∈ parse_wabbajack_json archives none,
      r.mod_id ≠ 0 ∧ r.file_id ≠ 0 ∧ r.game_domain ≠ "" ∧ r.filename ≠ "" := by
  have h : parse_wabbajack_json archives none
      = (archives.filter qualifies).map extractReq := extractLoop_none_eq archives
  refine ⟨h, by rw [h, List.length_map], ?_⟩
  intro r hr
  rw [h] at hr
  obtain ⟨a, ha, rfl⟩ := List.mem_map.mp hr
  have hq : qualifies a = true := List.of_mem_filter ha
  simp only [qualifies, Bool.and_assoc, Bool.and_eq_true] at hq
  exact ⟨truthyInt_getD hq.2.1, truthyInt_getD hq.2.2.1,
    truthyStr_getD hq.2.2.2.1, truthyStr_getD hq.2.2.2.2⟩

/-- Witness for C2: on the three-entry demo manifest, exactly the one
fully-populated entry is emitted, and its fields are truthy. -/
theorem c2_manifest_extraction_witness :
    parse_wabbajack_json demoArchives none
        = (demoArchives.filter qualifies).map extractReq ∧
    (extractReq archGood).mod_id ≠ 0 :=
  ⟨(c2_manifest_extraction demoArchives).1,
    ((c2_manifest_extraction demoArchives).2.2 (extractReq archGood) (by decide)).1⟩

/-- C7: with a filter string, the output equals the unfiltered output
restricted to records where the lower-cased filter occurs in the
lower-cased display name or raw game name; hence a filter matching no
entry yields the empty sequence. -/
theorem c7_filter_semantics (archives : List Archive) (f : String) :
    parse_wabbajack_json archives (some f)
      = (parse_wabbajack_json archives none).filter (filterPred f) ∧
    ((∀ r ∈ parse_wabbajack_json archives none, filterPred f r = false) →
      parse_wabbajack_json archives (some f) = []) := by
  have hmain : parse_wabbajack_json archives (some f)
      = (parse_wabbajack_json archives none).filter (filterPred f) := by
    by_cases hf : f = ""
    · subst hf
      have hall : ∀ r ∈ parse_wabbajack_json archives none, filterPred "" r = true := by
        intro r _
        have h0 : pyLower "" = "" := rfl
        simp [filterPred, h0, pyContains_empty]
      rw [List.filter_eq_self.mpr hall]
      rfl
    · show extractLoop (if f = "" then (none : Option String) else some (pyLower f))
        archives = _
      rw [if_neg hf]
      exact extractLoop_some_eq (pyLower f) archives
  refine ⟨hmain, fun hnone => ?_⟩
  rw [hmain, List.filter_eq_nil_iff.mpr]
  intro r hr
  simp [hnone r hr]

/-- Witness for C7: the filter "zzz" matches no demo entry, so the result
is empty. -/
theorem c7_filter_semantics_witness :
    parse_wabbajack_json demoArchives (some "zzz") = [] :=
  (c7_filter_semantics demoArchives "zzz").2 (by decide)

/-- C9: a NexusDownloader entry with `ModID` or `FileID` present but 0, or
`GameName` or `Name` present but empty, is silently dropped: removing it
from the archive list leaves the output unchanged, under any filter. -/
theorem c9_truthiness_drop (a : Archive) (pre post : List Archive)
    (fs : Option String)
    (hty : pyContains a.stateType "NexusDownloader" = true)
    (h : a.modID = some 0 ∨ a.fileID = some 0
      ∨ a.gameName = some "" ∨ a.Name = some "") :
    parse_wabbajack_json (pre ++ a :: post) fs = parse_wabbajack_json (pre ++ post) fs := by
  have hconj : (truthyInt a.modID && truthyInt a.fileID
      && truthyStr a.gameName && truthyStr a.Name) = false := by
    rcases h with h | h | h | h <;> simp [truthyInt, truthyStr, h]
  have hdrop : ∀ fl, extractLoop fl [a] = [] := by
    intro fl
    simp [extractLoop, hty, hconj]
  show extractLoop _ (pre ++ a :: post) = extractLoop _ (pre ++ post)
  rw [show pre ++ a :: post = pre ++ [a] ++ post by simp]
  rw [extractLoop_append, extractLoop_append, extractLoop_append, hdrop]
  simp

/-- Witness for C9: an entry whose `FileID` is present but 0 contributes
nothing next to a qualifying entry. -/
theorem c9_truthiness_drop_witness :
    parse_wabbajack_json ([archGood] ++ archZeroFile :: []) none
      = parse_wabbajack_json ([archGood] ++ []) none :=
  c9_truthiness_drop archZeroFile [archGood] [] none (by decide)
    (Or.inr (Or.inl (by decide)))

theorem streamLoop_chunks (events : List StreamEvent)
    (h : ∀ e ∈ events, ∃ b, e = StreamEvent.chunk b) :
    ∀ acc p, streamLoop events acc p
      = (true, some (acc ++ flattenChunks events), p + (flattenChunks events).length) := by
  induction events with
  | nil => intro acc p; simp [streamLoop, flattenChunks]
  | cons e rest ih =>
    intro acc p
    obtain ⟨b, rfl⟩ := h (e) (List.mem_cons_self e rest)
    have hrest : ∀ x ∈ rest, ∃ c, x = StreamEvent.chunk c :=
      fun x hx => h x (List.mem_cons_of_mem _ hx)
    by_cases hb : b.isEmpty = true
    · have hbnil : b = [] := List.isEmpty_iff.mp hb
      subst hbnil
      simp [streamLoop, flattenChunks, ih hrest]
    · simp only [Bool.not_eq_true] at hb
      simp only [streamLoop, hb, Bool.false_eq_true, if_false, ih hrest, flattenChunks]
      simp [List.append_assoc]
      omega

theorem streamLoop_transport (rest : List StreamEvent) (pre : List StreamEvent)
    (hpre : ∀ e ∈ pre, ∃ b, e = StreamEvent.chunk b) :
    ∀ acc p, ((streamLoop (pre ++ StreamEvent.transportFail :: rest) acc p).1 = false ∧
      (streamLoop (pre ++ StreamEvent.transportFail :: rest) acc p).2.1 = none) := by
  induction pre with
  | nil => intro acc p; simp [streamLoop]
  | cons e pre' ih =>
    intro acc p
    obtain ⟨b, rfl⟩ := hpre e (List.mem_cons_self e pre')
    have hrest : ∀ x ∈ pre', ∃ c, x = StreamEvent.chunk c :=
      fun x hx => hpre x (List.mem_cons_of_mem _ hx)
    by_cases hb : b.isEmpty = true
    · simp only [List.cons_append, streamLoop, hb, if_true]
      exact ih hrest acc p
    · simp only [Bool.not_eq_true] at hb
      simp only [List.cons_append, streamLoop, hb, Bool.false_eq_true, if_false]
      exact ih hrest (acc ++ b) (p + b.length)

theorem streamLoop_other (rest : List StreamEvent) (pre : List StreamEvent)
    (hpre : ∀ e ∈ pre, ∃ b, e = StreamEvent.chunk b) :
    ∀ acc p, ((streamLoop (pre ++ StreamEvent.otherFail :: rest) acc p).1 = false ∧
      (streamLoop (pre ++ StreamEvent.otherFail :: rest) acc p).2.1
        = some (acc ++ flattenChunks pre)) := by
  induction pre with
  | nil => intro acc p; simp [streamLoop, flattenChunks]
  | cons e pre' ih =>
    intro acc p
    obtain ⟨b, rfl⟩ := hpre e (List.mem_cons_self e pre')
    have hrest : ∀ x ∈ pre', ∃ c, x = StreamEvent.chunk c :=
      fun x hx => hpre x (List.mem_cons_of_mem _ hx)
    by_cases hb : b.isEmpty = true
    · have hbnil : b = [] := List.isEmpty_iff.mp hb
      subst hbnil
      simp only [List.cons_append, streamLoop, List.isEmpty_nil, if_true]
      simpa [flattenChunks] using ih hrest acc p
    · simp only [Bool.not_eq_true] at hb
      simp only [List.cons_append, streamLoop, hb, Bool.false_eq_true, if_false]
      simpa [flattenChunks, List.append_assoc] using ih hrest (acc ++ b) (p + b.length)

/-- Counterexample to C3: a non-transport IO failure mid-stream (the
generic handler at source line 161) reports failure but leaves the
partially-written file on disk — the file does exist afterwards. -/
theorem c3_cleanup_counterexample :
    (download_file (some 4) true [.chunk [1, 2], .otherFail]).success = false ∧
    (download_file (some 4) true [.chunk [1, 2], .otherFail]).file = some [1, 2] ∧
    (some [1, 2] : Option (List Nat)) ≠ none := by
  decide

/-- C3 (amended): on a transport failure (`RequestException`) mid-stream
the partial file is removed and failure is returned; on any other IO
failure mid-stream failure is returned but the partially-written file is
left in place, holding exactly the bytes received before the failure; in
both cases a boolean is returned rather than an exception. -/
theorem c3_cleanup_amended (cl : Option Nat) (pre rest : List StreamEvent)
    (hpre : ∀ e ∈ pre, ∃ b, e = StreamEvent.chunk b) :
    ((download_file cl true (pre ++ StreamEvent.transportFail :: rest)).success = false ∧
     (download_file cl true (pre ++ StreamEvent.transportFail :: rest)).file = none) ∧
    ((download_file cl true (pre ++ StreamEvent.otherFail :: rest)).success = false ∧
     (download_file cl true (pre ++ StreamEvent.otherFail :: rest)).file
        = some (flattenChunks pre)) := by
  have ht := streamLoop_transport rest pre hpre [] 0
  have ho := streamLoop_other rest pre hpre [] 0
  simp only [download_file, not_true, if_neg, ite_false]
  exact ⟨⟨ht.1, ht.2⟩, ⟨ho.1, by simpa using ho.2⟩⟩

/-- Witness for C3 (amended) at one-chunk streams. -/
theorem c3_cleanup_amended_witness :
    ((download_file (some 4) true ([.chunk [9]] ++ StreamEvent.transportFail :: [])).success
        = false ∧
     (download_file (some 4) true ([.chunk [9]] ++ StreamEvent.transportFail :: [])).file
        = none) ∧
    ((download_file (some 4) true ([.chunk [9]] ++ StreamEvent.otherFail :: [])).success
        = false ∧
     (download_file (some 4) true ([.chunk [9]] ++ StreamEvent.otherFail :: [])).file
        = some (flattenChunks [.chunk [9]])) :=
  c3_cleanup_amended (some 4) [.chunk [9]] []
    (by intro e he; simp at he; exact ⟨[9], he⟩)

/-- C8: on a successful stream whose declared content-length is 0 (or whose
header is absent), every received byte is still written and counted; the
written file and the success flag do not depend on the declared length. -/
theorem c8_zero_content_length (events : List StreamEvent)
    (h : ∀ e ∈ events, ∃ b, e = StreamEvent.chunk b) :
    (download_file (some 0) true events).success = true ∧
    (download_file (some 0) true events).file = some (flattenChunks events) ∧
    (download_file (some 0) true events).progressed = (flattenChunks events).length ∧
    ∀ cl : Option Nat,
      (download_file cl true events).file = (download_file (some 0) true events).file ∧
      (download_file cl true events).success = (download_file (some 0) true events).success := by
  have hs := streamLoop_chunks events h [] 0
  refine ⟨?_, ?_, ?_, fun cl => ⟨?_, ?_⟩⟩ <;>
    simp [download_file, hs]

/-- Witness for C8: a two-byte body under a declared length of 0 (and under
an absent header) is written in full. -/
theorem c8_zero_content_length_witness :
    (download_file (some 0) true [.chunk [7, 8]]).file = some [7, 8] ∧
    (download_file none true [.chunk [7, 8]]).file
      = (download_file (some 0) true [.chunk [7, 8]]).file :=
  ⟨(c8_zero_content_length [.chunk [7, 8]]
      (by intro e he; simp at he; exact ⟨[7, 8], he⟩)).2.1,
   ((c8_zero_content_length [.chunk [7, 8]]
      (by intro e he; simp at he; exact ⟨[7, 8], he⟩)).2.2.2 none).1⟩

theorem stepSelection_all (n : Nat) : stepSelection n "all" = SelAction.allA := rfl

/-- Counterexample to C4: on the missing/empty API key path the program
terminates via `exit` with a message string, which CPython maps to process
status 1, not the claimed 0. -/
theorem c4_exit_code_counterexample :
    mainExit false (.manualMode ⟨"skyrimse", "1", "2", "a.zip"⟩) = some 1 ∧
    (1 : Nat) ≠ 0 := by
  decide

/-- C4 (amended): the exit status is 1 on the missing/empty API key path
and on malformed manual numeric input, and 0 on the manifest-mode
nothing-to-do path, on manifest runs whose selection loop terminates, and
on manual runs whose ids parse. -/
theorem c4_exit_codes_amended (m : RunMode) (archives : List Archive)
    (fs : Option String) (script : List String) (inp : ManualInput) :
    mainExit false m = some 1 ∧
    (parse_wabbajack_json archives fs = [] →
      mainExit true (.manifestMode archives fs script) = some 0) ∧
    (∀ bs, selectionLoop (parse_wabbajack_json archives fs).length script = some bs →
      mainExit true (.manifestMode archives fs script) = some 0) ∧
    ((pyInt? inp.mod_id_str).isSome → (pyInt? inp.file_id_str).isSome →
      mainExit true (.manualMode inp) = some 0) ∧
    (((pyInt? inp.mod_id_str).isNone ∨ (pyInt? inp.file_id_str).isNone) →
      mainExit true (.manualMode inp) = some 1) := by
  refine ⟨rfl, ?_, ?_, ?_, ?_⟩
  · intro h
    simp [mainExit, h, pyExitStatus]
  · intro bs hbs
    by_cases he : (parse_wabbajack_json archives fs).isEmpty = true
    · simp [mainExit, he, pyExitStatus]
    · simp only [Bool.not_eq_true] at he
      simp [mainExit, he, hbs]
  · intro h1 h2
    obtain ⟨a, ha⟩ := Option.isSome_iff_exists.mp h1
    obtain ⟨b, hb⟩ := Option.isSome_iff_exists.mp h2
    simp [mainExit, ha, hb]
  · intro h
    rcases h with h | h <;> rw [Option.isNone_iff_eq_none] at h
    · cases hf : pyInt? inp.file_id_str <;> simp [mainExit, h, hf, pyExitStatus]
    · cases hm : pyInt? inp.mod_id_str <;> simp [mainExit, h, hm, pyExitStatus]

/-- Witness for C4 (amended): a nothing-to-do manifest run exits 0; a
manual run with a non-numeric Mod ID exits 1. -/
theorem c4_exit_codes_amended_witness :
    mainExit true (.manifestMode [] none ["q"]) = some 0 ∧
    mainExit true (.manualMode ⟨"s", "x", "2", "f"⟩) = some 1 :=
  ⟨(c4_exit_codes_amended (.manualMode ⟨"s", "x", "2", "f"⟩) [] none ["q"]
      ⟨"s", "x", "2", "f"⟩).2.1 (by decide),
   (c4_exit_codes_amended (.manualMode ⟨"s", "x", "2", "f"⟩) [] none ["q"]
      ⟨"s", "x", "2", "f"⟩).2.2.2.2 (Or.inl (by decide))⟩

/-- C10: an "all" selection never ends the run by itself — the loop
re-prompts on the remaining script — and in every terminating run all
batches except possibly the last are all-batches, so the run ends only on
q or after one valid single-index download. -/
theorem c10_selection_reprompt_after_all (n : Nat) (rest script : List String)
    (bs : List Batch) (h : selectionLoop n script = some bs) :
    selectionLoop n ("all" :: rest)
      = (selectionLoop n rest).map (fun l => Batch.allB :: l) ∧
    bs.dropLast.all Batch.isAll = true := by
  constructor
  · simp [selectionLoop, stepSelection_all]
  · induction script generalizing bs with
    | nil => simp [selectionLoop] at h
    | cons s rest' ih =>
      simp only [selectionLoop] at h
      cases hstep : stepSelection n s <;> rw [hstep] at h
      case quitA =>
        obtain rfl : ([] : List Batch) = bs := Option.some_inj.mp h
        simp
      case oneA i =>
        obtain rfl : [Batch.oneB i] = bs := Option.some_inj.mp h
        simp
      case allA =>
        obtain ⟨bs', hbs', rfl⟩ := Option.map_eq_some'.mp h
        have htail := ih bs' hbs'
        cases bs' with
        | nil => simp
        | cons x xs =>
          simp only [List.dropLast_cons₂, List.all_cons, Batch.isAll, Bool.true_and]
          simpa using htail
      case repromptA => exact ih bs h

/-- Witness for C10: the script all, x, 1 with two listed items performs an
all-batch, re-prompts past an invalid line, then ends on index 1. -/
theorem c10_selection_reprompt_after_all_witness :
    selectionLoop 2 ["all", "x", "1"]
      = (selectionLoop 2 ["x", "1"]).map (fun l => Batch.allB :: l) ∧
    ([Batch.allB, Batch.oneB 0] : List Batch).dropLast.all Batch.isAll = true :=
  c10_selection_reprompt_after_all 2 ["x", "1"] ["all", "x", "1"]
    [Batch.allB, Batch.oneB 0] (by decide)
